import Mathlib

/-!
Verification of the request-parsing and dispatch logic of a minimal
single-connection HTTP responder (`src/main.rs`).

Strings are embedded as lists of characters (`Str`); Rust operations that can
panic (`unwrap`, indexing) are embedded as `Option`-returning functions, where
`none` models a panic.  File reads performed by handlers are abstracted by a
function `FS : Str → Option Str` mapping a path to its content (`none` models
a read failure).
-/

/-- Strings are embedded as lists of characters. -/
abbrev Str := List Char

/-- Coerce a Lean string literal to the embedding. -/
def str (s : String) : Str := s.data

/-- Whitespace predicate used by `split_whitespace` and `trim`
(ASCII whitespace, which is all that the inputs of interest contain). -/
def isWS (c : Char) : Bool := c = ' ' || c = '\t' || c = '\n' || c = '\r'

/-- Rust `str::trim`: remove leading and trailing whitespace. -/
def trim (l : Str) : Str := ((l.dropWhile isWS).reverse.dropWhile isWS).reverse

/-- Accumulator-based worker for `splitWS`; `cur` holds the current token
reversed. -/
def splitWSAux (cur : Str) : Str → List Str
  | [] => if cur.isEmpty then [] else [cur.reverse]
  | c :: rest =>
    if isWS c then
      if cur.isEmpty then splitWSAux [] rest
      else cur.reverse :: splitWSAux [] rest
    else splitWSAux (c :: cur) rest

/-- Rust `str::split_whitespace`: split on runs of whitespace, producing no
empty tokens. -/
def splitWS (l : Str) : List Str := splitWSAux [] l

/-- Rust `str::split(sep)` collected to a list: split on every occurrence of
`sep`, keeping empty pieces; the result is always nonempty. -/
def splitOnC (sep : Char) : Str → List Str
  | [] => [[]]
  | c :: rest =>
    if c = sep then [] :: splitOnC sep rest
    else
      let r := splitOnC sep rest
      (c :: r.headD []) :: r.tail

/-- Rust `Vec::join(sep)` for a one-character separator. -/
def joinSep (sep : Char) : List Str → Str
  | [] => []
  | [x] => x
  | x :: y :: rest => x ++ sep :: joinSep sep (y :: rest)

/-- Rust `str::starts_with(c)` for a one-character pattern. -/
def startsW (l : Str) (c : Char) : Bool :=
  match l with
  | [] => false
  | x :: _ => x = c

/-- Rust `str::contains(needle)` for a string pattern: substring search. -/
def containsSub (needle : Str) : Str → Bool
  | [] => needle.isEmpty
  | c :: rest => needle.isPrefixOf (c :: rest) || containsSub needle rest

/-- `HashMap::insert`: the map is kept as an association list with at most one
entry per key; inserting overwrites any previous binding of the key. -/
def insertH (k v : Str) (m : List (Str × Str)) : List (Str × Str) :=
  (k, v) :: m.filter (fun p => !(p.1 == k))

/-- `HashMap::get`: look a key up in the association list. -/
def lookupH {β : Type} (m : List (Str × β)) (k : Str) : Option β :=
  (m.find? (fun p => p.1 == k)).map (fun p => p.2)

/-- The `Method` enum of `main.rs`. -/
inductive Method where
  | GET
  | POST
  | PUT
  | DELETE
deriving DecidableEq

/-- The `ParsedRequest` struct of `main.rs`.  The `HashMap` of headers is
embedded as an association list with at most one entry per key. -/
structure ParsedRequest where
  method : Method
  route : Str
  version : Str
  query : Str
  headers : List (Str × Str)
  body : Str
deriving DecidableEq

/-- The method token match of `get_parsed_request` (lines 66–72): the four
verbs map case-sensitively, anything else defaults to `GET`. -/
def parseMethod (s : Str) : Method :=
  if s = str "GET" then .GET
  else if s = str "POST" then .POST
  else if s = str "PUT" then .PUT
  else if s = str "DELETE" then .DELETE
  else .GET

/-- One iteration of the header loop of `get_parsed_request` (lines 51–64):
skip lines without `:` or starting with a brace; otherwise split on the first
`:`, rejoin the remainder with `:`, trim both sides, insert.  The `unwrap` on
the first piece is modelled by the `Option`. -/
def processHeaderLine (headers : List (Str × Str)) (header : Str) :
    Option (List (Str × Str)) :=
  if !(header.contains ':') || startsW header '{' then some headers
  else
    let sp := splitOnC ':' header
    match sp[0]? with
    | some key => some (insertH (trim key) (trim (joinSep ':' (sp.drop 1))) headers)
    | none => none

/-- The body extraction of `get_parsed_request` (lines 74–86): only `POST`
inspects the last element, which becomes the body verbatim when it starts
with a brace. -/
def extractBody (method : Method) (request : List Str) : Str :=
  match method with
  | .POST =>
    match request.getLast? with
    | some r => if startsW r '{' then r else []
    | none => []
  | _ => []

/-- `get_parsed_request` (lines 34–96).  `none` models a panic of one of the
`unwrap`s; the empty-input default for the request line (`first()` → `""`)
is the `headD []`. -/
def get_parsed_request (request : List Str) : Option ParsedRequest :=
  let request_line := (request.head?).getD []
  let parts := splitWS request_line
  match parts[0]?, parts[1]?, parts[2]? with
  | some methodTok, some routeTok, some versionTok =>
    let route_parts := splitOnC '?' routeTok
    match route_parts[0]? with
    | some route =>
      let query := (route_parts[1]?).getD []
      match (request.drop 1).foldlM processHeaderLine ([] : List (Str × Str)) with
      | some headers =>
        let method := parseMethod methodTok
        some { method := method, route := route, version := versionTok,
               query := query, headers := headers,
               body := extractBody method request }
      | none => none
    | none => none
  | _, _, _ => none

/-- The file-reading collaborator: maps a path to its content, `none` on a
read failure. -/
abbrev FS := Str → Option Str

/-- A handler (`fn() -> String` in the source, parameterised here by the file
system it reads from). -/
abbrev Handler := FS → Str

/-- The `index` handler (lines 165–173): contents of `src/index.html`, or
empty on read failure. -/
def index (fs : FS) : Str :=
  match fs (str "src/index.html") with
  | some r => r
  | none => []

/-- The `not_found` handler (lines 175–183): contents of `src/404.html`, or
empty on read failure. -/
def not_found (fs : FS) : Str :=
  match fs (str "src/404.html") with
  | some r => r
  | none => []

/-- The handler table built in `handle_connection` (lines 143–144): only the
route `/` is registered. -/
def handlersTable : List (Str × Handler) := [(str "/", index)]

/-- The dispatch step of `handle_connection` (lines 145–155): look the route
up by exact string equality; found → 200 and that handler, otherwise → 404
and `not_found`.  The status literals carry the CRLF exactly as in the
source. -/
def dispatch (fs : FS) (route : Str) : Str × Str :=
  match lookupH handlersTable route with
  | some h => (str "HTTP/1.1 200 OK \r\n", h fs)
  | none => (str "HTTP/1.1 404 Not Found \r\n", not_found fs)

/-- Decimal rendering of a natural number, as Rust's `format!` of a `usize`. -/
def natToStr (n : Nat) : Str := Nat.toDigits 10 n

/-- The response assembly of `handle_connection` (line 156):
`format!("{status}Content-Length: {}\r\n\r\n{body}", body.len())`. -/
def mkResponse (status body : Str) : Str :=
  status ++ str "Content-Length: " ++ natToStr body.length ++ str "\r\n\r\n" ++ body

/-- The body-read decision of `handle_connection` (lines 127–137): index the
first head line (a panic — `none` — when there is none) and append the raw
fragment read from the stream iff that line contains the substring `POST`
anywhere. -/
def augmentRequest (req : List Str) (frag : Str) : Option (List Str) :=
  match req[0]? with
  | some first => some (if containsSub (str "POST") first then req ++ [frag] else req)
  | none => none

/-- The per-connection pipeline of `handle_connection` (lines 118–163), with
the network reads abstracted: `req` is the head-line sequence, `frag` the raw
fragment available after the head, `fs` the file system.  Returns the
response bytes, or `none` when the code panics. -/
def handle_connection (req : List Str) (frag : Str) (fs : FS) : Option Str :=
  match augmentRequest req frag with
  | some req2 =>
    match get_parsed_request req2 with
    | some pr =>
      let sb := dispatch fs pr.route
      some (mkResponse sb.1 sb.2)
    | none => none
  | none => none

/-- Concrete POST request used to witness C4. -/
def reqC4 : List Str := [str "POST / HTTP/1.1", str "\x7b\"a\":1\x7d"]

/-- The request record the parser produces for `reqC4`. -/
def prC4 : ParsedRequest :=
  { method := Method.POST, route := str "/", version := str "HTTP/1.1",
    query := [], headers := [], body := str "\x7b\"a\":1\x7d" }

/-- The parser agrees with the repository's unit tests on their inputs. -/
theorem parse_matches_unit_tests :
    (get_parsed_request [str "GET / HTTP/1.1"]).map (fun p => p.route)
      = some (str "/") ∧
    (get_parsed_request [str "GET /foo/bar?baz=qux HTTP/1.1"]).map (fun p => p.route)
      = some (str "/foo/bar") ∧
    (get_parsed_request [str "GET /foo/bar?baz=qux HTTP/1.1", str "Host: localhost:7878"]).map
        (fun p => lookupH p.headers (str "Host"))
      = some (some (str "localhost:7878")) :=
  ⟨by decide, by decide, by decide⟩

/-! ## Basic lemmas about the splitting helpers -/

theorem splitOnC_ne_nil (sep : Char) (l : Str) : splitOnC sep l ≠ [] := by
  cases l with
  | nil => simp [splitOnC]
  | cons c rest =>
    by_cases hc : c = sep <;> simp [splitOnC, hc]

theorem splitOnC_headD (sep : Char) (l : Str) :
    (splitOnC sep l).headD [] = l.takeWhile (fun c => c != sep) := by
  induction l with
  | nil => rfl
  | cons c rest ih =>
    by_cases hc : c = sep
    · simp [splitOnC, hc]
    · simp only [splitOnC, if_neg hc, List.headD_cons, List.takeWhile_cons,
        bne_iff_ne, ne_eq, hc, not_false_eq_true, ite_true, List.cons.injEq, true_and]
      simpa using ih

theorem splitOnC_of_not_mem (sep : Char) (l : Str) (h : sep ∉ l) :
    splitOnC sep l = [l] := by
  induction l with
  | nil => rfl
  | cons c rest ih =>
    have hc : ¬ c = sep := by
      intro hcc
      exact h (hcc ▸ List.mem_cons_self c rest)
    have hrest : sep ∉ rest := fun hm => h (List.mem_cons_of_mem c hm)
    simp [splitOnC, hc, ih hrest]

theorem splitOnC_of_mem (sep : Char) (l : Str) (h : sep ∈ l) :
    splitOnC sep l =
      l.takeWhile (fun c => c != sep) ::
        splitOnC sep ((l.dropWhile (fun c => c != sep)).tail) := by
  induction l with
  | nil => cases h
  | cons c rest ih =>
    by_cases hc : c = sep
    · simp [splitOnC, hc]
    · have hrest : sep ∈ rest := by
        cases List.mem_cons.mp h with
        | inl heq => exact absurd heq.symm hc
        | inr hm => exact hm
      simp [splitOnC, hc, ih hrest, List.takeWhile_cons, List.dropWhile_cons]

theorem joinSep_splitOnC (sep : Char) (l : Str) :
    joinSep sep (splitOnC sep l) = l := by
  induction l with
  | nil => rfl
  | cons c rest ih =>
    by_cases hc : c = sep
    · obtain ⟨h, t, hht⟩ := List.exists_cons_of_ne_nil (splitOnC_ne_nil sep rest)
      simp only [splitOnC, if_pos hc, hht, joinSep]
      rw [← hht, ih, hc]
      rfl
    · obtain ⟨h, t, hht⟩ := List.exists_cons_of_ne_nil (splitOnC_ne_nil sep rest)
      simp only [splitOnC, if_neg hc, hht, List.headD, List.tail]
      cases t with
      | nil =>
        have : joinSep sep [h] = rest := by rw [← hht, ih]
        simp only [joinSep] at this ⊢
        rw [this]
      | cons t0 ts =>
        have : joinSep sep (h :: t0 :: ts) = rest := by rw [← hht, ih]
        simp only [joinSep] at this ⊢
        rw [List.cons_append, this]

theorem splitOnC_get1 (sep : Char) (l : Str) :
    ((splitOnC sep l)[1]?).getD [] =
      ((l.dropWhile (fun c => c != sep)).tail).takeWhile (fun c => c != sep) := by
  by_cases h : sep ∈ l
  · rw [splitOnC_of_mem sep l h]
    obtain ⟨h0, t, hht⟩ :=
      List.exists_cons_of_ne_nil (splitOnC_ne_nil sep ((l.dropWhile (fun c => c != sep)).tail))
    rw [hht]
    have := splitOnC_headD sep ((l.dropWhile (fun c => c != sep)).tail)
    rw [hht] at this
    simpa using this
  · rw [splitOnC_of_not_mem sep l h]
    have hd : l.dropWhile (fun c => c != sep) = [] := by
      rw [List.dropWhile_eq_nil_iff]
      intro x hx
      simp only [bne_iff_ne, ne_eq]
      intro hxs
      exact h (hxs ▸ hx)
    simp [hd]

/-! ## Lemmas about the header map -/

theorem find?_filter_of_ne (k k' : Str) (h : k' ≠ k) (m : List (Str × Str)) :
    (m.filter (fun p => !(p.1 == k))).find? (fun p => p.1 == k')
      = m.find? (fun p => p.1 == k') := by
  induction m with
  | nil => rfl
  | cons a m ih =>
    by_cases hak : a.1 = k
    · have hk : (a.1 == k) = true := beq_iff_eq.mpr hak
      have hk' : (a.1 == k') = false := by
        rw [beq_eq_false_iff_ne, hak]
        exact fun hh => h hh.symm
      simp [List.filter_cons, hk, List.find?_cons, hk', ih]
    · have hk : (a.1 == k) = false := beq_eq_false_iff_ne.mpr hak
      by_cases hak' : a.1 = k'
      · simp [List.filter_cons, hk, List.find?_cons, beq_iff_eq.mpr hak']
      · simp [List.filter_cons, hk, List.find?_cons,
          beq_eq_false_iff_ne.mpr hak', ih]

theorem lookupH_insertH_self (k v : Str) (m : List (Str × Str)) :
    lookupH (insertH k v m) k = some v := by
  simp [lookupH, insertH, List.find?_cons]

theorem lookupH_insertH_ne (k v k' : Str) (m : List (Str × Str)) (h : k' ≠ k) :
    lookupH (insertH k v m) k' = lookupH m k' := by
  have hk : (k == k') = false := by
    rw [beq_eq_false_iff_ne]
    exact fun hh => h hh.symm
  simp only [lookupH, insertH, List.find?_cons, hk]
  rw [find?_filter_of_ne k k' h m]

/-! ## Lemmas about the header-line loop -/

theorem processHeaderLine_skip (m : List (Str × Str)) (l : Str)
    (h : l.contains ':' = false ∨ startsW l '{' = true) :
    processHeaderLine m l = some m := by
  have hcond : (!(l.contains ':') || startsW l '{') = true := by
    rcases h with h | h <;> rw [h] <;> simp
  unfold processHeaderLine
  rw [if_pos hcond]

theorem processHeaderLine_insert (m : List (Str × Str)) (l : Str)
    (h1 : l.contains ':' = true) (h2 : startsW l '{' = false) :
    processHeaderLine m l =
      some (insertH (trim (l.takeWhile (fun c => c != ':')))
        (trim ((l.dropWhile (fun c => c != ':')).tail)) m) := by
  have hmem : ':' ∈ l := by
    obtain ⟨b, hb, hab⟩ := List.contains_iff_exists_mem_beq.mp h1
    obtain rfl := beq_iff_eq.mp hab
    exact hb
  have hcond : (!(l.contains ':') || startsW l '{') = false := by
    rw [h1, h2]; rfl
  have hsp := splitOnC_of_mem ':' l hmem
  unfold processHeaderLine
  rw [if_neg (by rw [hcond]; simp)]
  simp only [hsp, List.getElem?_cons_zero, List.drop_succ_cons, List.drop_zero]
  rw [joinSep_splitOnC]

theorem processHeaderLine_isSome (m : List (Str × Str)) (l : Str) :
    (processHeaderLine m l).isSome := by
  by_cases h1 : l.contains ':' = true
  · by_cases h2 : startsW l '{' = true
    · rw [processHeaderLine_skip m l (Or.inr h2)]; rfl
    · rw [processHeaderLine_insert m l h1 (Bool.eq_false_iff.mpr h2)]; rfl
  · rw [processHeaderLine_skip m l (Or.inl (Bool.eq_false_iff.mpr h1))]; rfl

theorem foldl_header_isSome (l : List Str) :
    ∀ m : List (Str × Str), (l.foldlM processHeaderLine m).isSome := by
  induction l with
  | nil => intro m; rfl
  | cons a l ih =>
    intro m
    have hs := processHeaderLine_isSome m a
    cases hx : processHeaderLine m a with
    | none => rw [hx] at hs; simp at hs
    | some m' => simp [List.foldlM_cons, hx, ih m']

/-! ## Characterisation of `get_parsed_request` -/

theorem parse_eq (req : List Str) (m t v : Str) (rest : List Str)
    (h : splitWS ((req.head?).getD []) = m :: t :: v :: rest) :
    ∃ hdrs, (req.drop 1).foldlM processHeaderLine ([] : List (Str × Str)) = some hdrs ∧
      get_parsed_request req = some
        { method := parseMethod m,
          route := (splitOnC '?' t).headD [],
          version := v,
          query := ((splitOnC '?' t)[1]?).getD [],
          headers := hdrs,
          body := extractBody (parseMethod m) req } := by
  obtain ⟨hdrs, hh⟩ := Option.isSome_iff_exists.mp (foldl_header_isSome (req.drop 1) [])
  refine ⟨hdrs, hh, ?_⟩
  obtain ⟨r0, rt, hrt⟩ := List.exists_cons_of_ne_nil (splitOnC_ne_nil '?' t)
  simp [get_parsed_request, h, hrt]
  rw [← List.drop_one, hh]

theorem parse_inv (req : List Str) (pr : ParsedRequest)
    (h : get_parsed_request req = some pr) :
    ∃ m t v rest, splitWS ((req.head?).getD []) = m :: t :: v :: rest ∧
      pr.method = parseMethod m ∧
      pr.route = (splitOnC '?' t).headD [] ∧
      pr.version = v ∧
      pr.query = ((splitOnC '?' t)[1]?).getD [] ∧
      pr.body = extractBody (parseMethod m) req := by
  match hs : splitWS ((req.head?).getD []) with
  | [] => simp [get_parsed_request, hs] at h
  | [m] => simp [get_parsed_request, hs] at h
  | [m, t] => simp [get_parsed_request, hs] at h
  | m :: t :: v :: rest =>
    obtain ⟨hdrs, _, hpe⟩ := parse_eq req m t v rest hs
    rw [hpe] at h
    obtain rfl := Option.some_injective _ h
    exact ⟨m, t, v, rest, rfl, rfl, rfl, rfl, rfl, rfl⟩

/-! ## Dispatch helpers -/

theorem dispatch_root (fs : FS) (route : Str) (h : route = str "/") :
    dispatch fs route = (str "HTTP/1.1 200 OK \r\n", index fs) := by
  subst h; rfl

theorem dispatch_other (fs : FS) (route : Str) (h : route ≠ str "/") :
    dispatch fs route = (str "HTTP/1.1 404 Not Found \r\n", not_found fs) := by
  have hb : ((str "/", index).1 == route) = false :=
    beq_eq_false_iff_ne.mpr (fun hh => h hh.symm)
  simp [dispatch, lookupH, handlersTable, List.find?_cons, hb]

/-! ## The claims -/

/-- C1: the claim says an empty input line sequence must not crash the parser
and must be routed to 404.  The code violates this: with no lines, the
defaulted empty request line splits into zero whitespace tokens and the very
first `unwrap` panics (modelled as `none`); `handle_connection` additionally
indexes `req[0]` out of bounds.  This theorem evaluates the code at the
failing input. -/
theorem C1_empty_input_crash :
    get_parsed_request [] = none ∧ handle_connection [] [] (fun _ => none) = none :=
  ⟨rfl, rfl⟩

/-- C2 (counterexample): for the request line `GET /a?b?c HTTP/1.1`, the code
yields `query = "b"`, not the substring `"b?c"` of the target after the first
`?` that the claim demands. -/
theorem C2_counterexample_query :
    (get_parsed_request [str "GET /a?b?c HTTP/1.1"]).map (fun p => p.query)
      = some (str "b") ∧ (str "b" : Str) ≠ str "b?c" :=
  ⟨by decide, by decide⟩

/-- C2 (amended): for every well-formed request line (first input line whose
whitespace split is exactly `[method, target, version]`), the parse succeeds,
`route` is the prefix of the target before the first `?` (and never contains
`?`), and `query` is the segment of the target strictly between the first `?`
and the second `?` (or the end of the target), i.e. empty when the target has
no `?`. -/
theorem C2_route_query (req : List Str) (line m t v : Str)
    (hline : req.head? = some line)
    (hsplit : splitWS line = [m, t, v]) :
    ∃ pr, get_parsed_request req = some pr ∧
      pr.route = t.takeWhile (fun c => c != '?') ∧
      pr.query = ((t.dropWhile (fun c => c != '?')).tail).takeWhile (fun c => c != '?') ∧
      '?' ∉ pr.route := by
  have hsp : splitWS ((req.head?).getD []) = m :: t :: v :: ([] : List Str) := by
    rw [hline]
    exact hsplit
  obtain ⟨hdrs, _, hpe⟩ := parse_eq req m t v [] hsp
  refine ⟨_, hpe, ?_, ?_, ?_⟩
  · simpa using splitOnC_headD '?' t
  · simp [splitOnC_get1]
  · simp only [splitOnC_headD]
    intro hmem
    have := List.mem_takeWhile_imp hmem
    simp at this

/-- C2 witness: the amended theorem applied to
`GET /foo/bar?baz=qux HTTP/1.1`. -/
theorem C2_route_query_witness :
    ∃ pr, get_parsed_request [str "GET /foo/bar?baz=qux HTTP/1.1"] = some pr ∧
      pr.route = (str "/foo/bar?baz=qux").takeWhile (fun c => c != '?') ∧
      pr.query = (((str "/foo/bar?baz=qux").dropWhile (fun c => c != '?')).tail).takeWhile
        (fun c => c != '?') ∧
      '?' ∉ pr.route :=
  C2_route_query [str "GET /foo/bar?baz=qux HTTP/1.1"]
    (str "GET /foo/bar?baz=qux HTTP/1.1") (str "GET") (str "/foo/bar?baz=qux")
    (str "HTTP/1.1") rfl (by decide)

/-- C3: a head line after the first without `:` or starting with a brace is
skipped; otherwise it is split at the first `:` — key is the prefix before
it, value the remainder after it with any further colons preserved — both
trimmed, and insertion is last-write-wins under (case-sensitive) key
equality. -/
theorem C3_header_lines (m : List (Str × Str)) (l k v k' : Str) :
    ((l.contains ':' = false ∨ startsW l '{' = true) → processHeaderLine m l = some m) ∧
    (l.contains ':' = true → startsW l '{' = false →
      processHeaderLine m l =
        some (insertH (trim (l.takeWhile (fun c => c != ':')))
          (trim ((l.dropWhile (fun c => c != ':')).tail)) m)) ∧
    lookupH (insertH k v m) k = some v ∧
    (k' ≠ k → lookupH (insertH k v m) k' = lookupH m k') :=
  ⟨processHeaderLine_skip m l, processHeaderLine_insert m l,
    lookupH_insertH_self k v m, lookupH_insertH_ne k v k' m⟩

/-- C3 witness: the header line `Host: localhost:7878` inserted into the
empty map, plus the lookup facts at concrete keys. -/
theorem C3_header_lines_witness :
    processHeaderLine [] (str "Host: localhost:7878") =
      some (insertH (trim ((str "Host: localhost:7878").takeWhile (fun c => c != ':')))
        (trim (((str "Host: localhost:7878").dropWhile (fun c => c != ':')).tail)) []) ∧
    lookupH (insertH (str "Host") (str "h1") []) (str "Host") = some (str "h1") ∧
    lookupH (insertH (str "Host") (str "h1") []) (str "host") = lookupH [] (str "host") :=
  ⟨(C3_header_lines [] (str "Host: localhost:7878") (str "Host") (str "h1")
      (str "host")).2.1 (by decide) (by decide),
   (C3_header_lines [] (str "Host: localhost:7878") (str "Host") (str "h1")
      (str "host")).2.2.1,
   (C3_header_lines [] (str "Host: localhost:7878") (str "Host") (str "h1")
      (str "host")).2.2.2 (by decide)⟩

/-- C4: whenever the parse succeeds, the body is the last input element
verbatim when the method is `POST` and that element starts with a brace,
empty when it does not, and empty for every non-`POST` method regardless of
the trailing element. -/
theorem C4_body_extraction (req : List Str) (pr : ParsedRequest)
    (h : get_parsed_request req = some pr) :
    (pr.method = Method.POST →
      pr.body = (match req.getLast? with
        | some r => if startsW r '{' then r else []
        | none => [])) ∧
    (pr.method ≠ Method.POST → pr.body = []) := by
  obtain ⟨m, t, v, rest, _, hm, _, _, _, hb⟩ := parse_inv req pr h
  constructor
  · intro hp
    have hpm : parseMethod m = Method.POST := hm.symm.trans hp
    rw [hb, hpm]
    rfl
  · intro hp
    rw [hm] at hp
    rw [hb]
    cases hc : parseMethod m with
    | POST => exact absurd hc hp
    | GET => rfl
    | PUT => rfl
    | DELETE => rfl

/-- C4 witness: the POST request with trailing element `{"a":1}` gets exactly
that body. -/
theorem C4_body_extraction_witness :
    prC4.body = (match reqC4.getLast? with
      | some r => if startsW r '{' then r else []
      | none => []) :=
  (C4_body_extraction reqC4 prC4 (by decide)).1 (by decide)

/-- C5: dispatch is exact string lookup on the parsed route: the registered
route `/` gets the literal status line `HTTP/1.1 200 OK ` (trailing space)
followed by CRLF and the index handler's body; any other route gets
`HTTP/1.1 404 Not Found ` and the not-found handler's body. -/
theorem C5_dispatch_exact (fs : FS) (route : Str) :
    (route = str "/" →
      dispatch fs route = (str "HTTP/1.1 200 OK " ++ str "\r\n", index fs)) ∧
    (route ≠ str "/" →
      dispatch fs route = (str "HTTP/1.1 404 Not Found " ++ str "\r\n", not_found fs)) := by
  constructor
  · intro h
    rw [dispatch_root fs route h]
    rw [show (str "HTTP/1.1 200 OK \r\n" : Str)
        = str "HTTP/1.1 200 OK " ++ str "\r\n" from by decide]
  · intro h
    rw [dispatch_other fs route h]
    rw [show (str "HTTP/1.1 404 Not Found \r\n" : Str)
        = str "HTTP/1.1 404 Not Found " ++ str "\r\n" from by decide]

/-- C5 witness: both branches at concrete routes with an empty file system. -/
theorem C5_dispatch_exact_witness :
    dispatch (fun _ => none) (str "/")
      = (str "HTTP/1.1 200 OK " ++ str "\r\n", index (fun _ => none)) ∧
    dispatch (fun _ => none) (str "/missing")
      = (str "HTTP/1.1 404 Not Found " ++ str "\r\n", not_found (fun _ => none)) :=
  ⟨(C5_dispatch_exact (fun _ => none) (str "/")).1 rfl,
   (C5_dispatch_exact (fun _ => none) (str "/missing")).2 (by decide)⟩

/-- C6: every response the connection handler produces is exactly
status-line, CRLF, `Content-Length: `, the decimal length of the body as
returned by the handler, CRLF, CRLF, body — with no other headers, and the
status line one of the two literals. -/
theorem C6_response_format (req : List Str) (frag : Str) (fs : FS) (resp : Str)
    (h : handle_connection req frag fs = some resp) :
    ∃ status body,
      ((status = str "HTTP/1.1 200 OK " ∧ body = index fs) ∨
       (status = str "HTTP/1.1 404 Not Found " ∧ body = not_found fs)) ∧
      resp = status ++ str "\r\n" ++ str "Content-Length: " ++ natToStr body.length
        ++ str "\r\n" ++ str "\r\n" ++ body := by
  unfold handle_connection at h
  cases ha : augmentRequest req frag with
  | none => simp [ha] at h
  | some req2 =>
    simp only [ha] at h
    cases hp : get_parsed_request req2 with
    | none => simp [hp] at h
    | some pr =>
      simp only [hp] at h
      have hresp : resp = mkResponse (dispatch fs pr.route).1 (dispatch fs pr.route).2 :=
        (Option.some_injective _ h).symm
      by_cases hr : pr.route = str "/"
      · refine ⟨str "HTTP/1.1 200 OK ", index fs, Or.inl ⟨rfl, rfl⟩, ?_⟩
        rw [hresp, dispatch_root fs pr.route hr]
        simp only [mkResponse]
        rw [show (str "HTTP/1.1 200 OK \r\n" : Str)
            = str "HTTP/1.1 200 OK " ++ str "\r\n" from by decide,
          show (str "\r\n\r\n" : Str) = str "\r\n" ++ str "\r\n" from by decide]
        simp [List.append_assoc]
      · refine ⟨str "HTTP/1.1 404 Not Found ", not_found fs, Or.inr ⟨rfl, rfl⟩, ?_⟩
        rw [hresp, dispatch_other fs pr.route hr]
        simp only [mkResponse]
        rw [show (str "HTTP/1.1 404 Not Found \r\n" : Str)
            = str "HTTP/1.1 404 Not Found " ++ str "\r\n" from by decide,
          show (str "\r\n\r\n" : Str) = str "\r\n" ++ str "\r\n" from by decide]
        simp [List.append_assoc]

/-- C6 witness: the concrete wire bytes of a `GET /` whose index file holds
`ok`. -/
theorem C6_response_format_witness :
    ∃ status body,
      ((status = str "HTTP/1.1 200 OK " ∧ body = index (fun _ => some (str "ok"))) ∨
       (status = str "HTTP/1.1 404 Not Found " ∧ body = not_found (fun _ => some (str "ok")))) ∧
      str "HTTP/1.1 200 OK \r\nContent-Length: 2\r\n\r\nok"
        = status ++ str "\r\n" ++ str "Content-Length: " ++ natToStr body.length
          ++ str "\r\n" ++ str "\r\n" ++ body :=
  C6_response_format [str "GET / HTTP/1.1"] [] (fun _ => some (str "ok"))
    (str "HTTP/1.1 200 OK \r\nContent-Length: 2\r\n\r\nok") (by decide)

/-- C7: when the handlers' backing file reads fail, the handler body is
empty, the 200/404 status picked by dispatch is exactly the one picked under
any other file system (unchanged by the failure), and the assembled response
carries `Content-Length: 0`. -/
theorem C7_read_failure (fs fs' : FS) (route : Str)
    (h1 : fs (str "src/index.html") = none) (h2 : fs (str "src/404.html") = none) :
    (dispatch fs route).2 = [] ∧
    (dispatch fs route).1 = (dispatch fs' route).1 ∧
    mkResponse (dispatch fs route).1 (dispatch fs route).2 =
      (dispatch fs route).1 ++ str "Content-Length: 0" ++ str "\r\n" ++ str "\r\n" := by
  by_cases hr : route = str "/"
  · have hi : index fs = [] := by simp [index, h1]
    rw [dispatch_root fs route hr, dispatch_root fs' route hr]
    exact ⟨hi, rfl, by rw [hi]; decide⟩
  · have hn : not_found fs = [] := by simp [not_found, h2]
    rw [dispatch_other fs route hr, dispatch_other fs' route hr]
    exact ⟨hn, rfl, by rw [hn]; decide⟩

/-- C7 witness: a failing file system against a succeeding one, on the
registered route. -/
theorem C7_read_failure_witness :
    (dispatch (fun _ => none) (str "/")).2 = [] ∧
    (dispatch (fun _ => none) (str "/")).1 = (dispatch (fun _ => some (str "x")) (str "/")).1 ∧
    mkResponse (dispatch (fun _ => none) (str "/")).1 (dispatch (fun _ => none) (str "/")).2 =
      (dispatch (fun _ => none) (str "/")).1 ++ str "Content-Length: 0"
        ++ str "\r\n" ++ str "\r\n" :=
  C7_read_failure (fun _ => none) (fun _ => some (str "x")) (str "/") rfl rfl

/-- C8: whenever the first input line splits on whitespace into at least
three tokens, `get_parsed_request` returns a value — every `unwrap` on the
parsing path finds a present value. -/
theorem C8_parse_total (req : List Str)
    (h : 3 ≤ (splitWS ((req.head?).getD [])).length) :
    (get_parsed_request req).isSome := by
  match hs : splitWS ((req.head?).getD []) with
  | [] => rw [hs] at h; simp at h
  | [m] => rw [hs] at h; simp at h
  | [m, t] => rw [hs] at h; simp at h
  | m :: t :: v :: rest =>
    obtain ⟨hdrs, _, hpe⟩ := parse_eq req m t v rest hs
    rw [hpe]
    rfl

/-- C8 witness: a well-formed GET request parses to a value. -/
theorem C8_parse_total_witness :
    (get_parsed_request [str "GET / HTTP/1.1", str "Host: localhost:7878"]).isSome :=
  C8_parse_total [str "GET / HTTP/1.1", str "Host: localhost:7878"] (by decide)

/-- C9: the method token match sends the four verbs to their variants
case-sensitively and every other token to `GET`. -/
theorem C9_method_token (s : Str) :
    parseMethod (str "GET") = Method.GET ∧
    parseMethod (str "POST") = Method.POST ∧
    parseMethod (str "PUT") = Method.PUT ∧
    parseMethod (str "DELETE") = Method.DELETE ∧
    (s ≠ str "GET" → s ≠ str "POST" → s ≠ str "PUT" → s ≠ str "DELETE" →
      parseMethod s = Method.GET) := by
  refine ⟨by decide, by decide, by decide, by decide, ?_⟩
  intro h1 h2 h3 h4
  simp [parseMethod, h1, h2, h3, h4]

/-- C9 witness: the unknown token `PATCH` defaults to `GET`. -/
theorem C9_method_token_witness :
    parseMethod (str "PATCH") = Method.GET :=
  (C9_method_token (str "PATCH")).2.2.2.2 (by decide) (by decide) (by decide) (by decide)

/-- C10: the body-reading branch of `handle_connection` is decided by a
substring test on the first head line, not by the parsed method: the GET
request line `GET /POST HTTP/1.1` (parsed method `GET`) takes the branch and
gets the fragment appended, while a first line without the substring `POST`
does not. -/
theorem C10_substring_branch :
    augmentRequest [str "GET /POST HTTP/1.1"] (str "\x7bx\x7d")
      = some [str "GET /POST HTTP/1.1", str "\x7bx\x7d"] ∧
    (get_parsed_request [str "GET /POST HTTP/1.1"]).map (fun p => p.method)
      = some Method.GET ∧
    augmentRequest [str "GET / HTTP/1.1"] (str "\x7bx\x7d")
      = some [str "GET / HTTP/1.1"] :=
  ⟨by decide, by decide, by decide⟩
